import Mathlib

/-!
Verification of `maven_downloader` (files `maven.py`, `__main__.py`).

Python strings are embedded as `List Char`; CPython `dict[str, str]` as an
association list where insertion prepends (so a lookup of the first match
returns the most recent assignment, matching `dict.get`); the filesystem and
the network are passed explicitly where the code touches them.  Fallible or
potentially diverging loops take a fuel argument and return `Option`/`Except`.
-/

namespace MavenDownloader

/-- Python `str` is modelled as a list of characters. -/
abbrev Str := List Char

/-- Coerce a Lean string literal to the model type. -/
def strL (s : String) : Str := s.data

/-- The character `$`. -/
def dollarC : Char := '$'

/-- The character `{` (written via its code point). -/
def lbraceC : Char := Char.ofNat 123

/-- The character `}` (written via its code point). -/
def rbraceC : Char := Char.ofNat 125

/-- The two-character pattern `${` that opens a placeholder. -/
def dollarBrace : Str := [dollarC, lbraceC]

/-- Auxiliary scan for `Str.pyFind`: index of the first occurrence of `pat`. -/
def strFindAux (pat : Str) : Str → Option Nat
  | [] => if pat.isEmpty then some 0 else none
  | c :: rest =>
    if pat.isPrefixOf (c :: rest) then some 0
    else (strFindAux pat rest).map Nat.succ

/-- Python `text.find(pat)`: index of the leftmost occurrence, `none` for `-1`. -/
def pyFind (text pat : Str) : Option Nat := strFindAux pat text

/-- Python slice `text[a:b]` for nonnegative bounds (empty when `a ≥ b`). -/
def pySlice (text : Str) (a b : Nat) : Str := (text.take b).drop a

/-- Python `properties.get(name, "")`. -/
def dictGet (d : List (Str × Str)) (k : Str) : Str :=
  match d.lookup k with
  | some v => v
  | none => []

/-- Python `properties[k] = v` (later assignments win on lookup). -/
def dictInsert (d : List (Str × Str)) (k v : Str) : List (Str × Str) :=
  (k, v) :: d

/-- One iteration of the `while` loop of `parse_property_value`
(maven.py lines 84-92), entered with `idx` the position of the leftmost
`${`.  Note the source computes `end = text.find("}")` from the START of
the string; when no `}` exists Python's `find` yields `-1`, making the
slice `text[idx+2:-1]` stop one short of the end and the tail
`text[end+1:]` the whole string.  Both cases are reproduced exactly. -/
def substOnce (props : List (Str × Str)) (text : Str) (idx : Nat) : Str :=
  match pyFind text [rbraceC] with
  | some e =>
    let name := pySlice text (idx + 2) e
    let repl := dictGet props name
    text.take idx ++ repl ++ text.drop (e + 1)
  | none =>
    let name := pySlice text (idx + 2) (text.length - 1)
    let repl := dictGet props name
    text.take idx ++ repl ++ text

/-- `parse_property_value` (maven.py lines 82-93).  The source's `while`
loop need not terminate, so the embedding consumes one unit of fuel per
iteration and returns `none` when the fuel runs out with a `${` still
present. -/
def parse_property_value (props : List (Str × Str)) : Nat → Str → Option Str
  | 0, text =>
    match pyFind text dollarBrace with
    | none => some text
    | some _ => none
  | fuel + 1, text =>
    match pyFind text dollarBrace with
    | none => some text
    | some idx => parse_property_value props fuel (substOnce props text idx)

/-- Modelled from the spec (§4.5), for refinement comparison only: one
substitution step that pairs the leftmost `${` with the next `}`
occurring AFTER it (searching from `idx + 2`); when no such `}` exists
the spec leaves the case unspecified and this model stops rewriting. -/
def specSubstOnce (props : List (Str × Str)) (text : Str) (idx : Nat) :
    Option Str :=
  match pyFind (text.drop (idx + 2)) [rbraceC] with
  | some k =>
    let e := idx + 2 + k
    let name := pySlice text (idx + 2) e
    let repl := dictGet props name
    some (text.take idx ++ repl ++ text.drop (e + 1))
  | none => none

/-- Modelled from the spec (§4.5), for refinement comparison only: the whole
substitution loop using `specSubstOnce`, restarting from the start of the
resulting string after each splice. -/
def specSubstitute (props : List (Str × Str)) : Nat → Str → Option Str
  | 0, text =>
    match pyFind text dollarBrace with
    | none => some text
    | some _ => none
  | fuel + 1, text =>
    match pyFind text dollarBrace with
    | none => some text
    | some idx =>
      match specSubstOnce props text idx with
      | none => none
      | some text2 => specSubstitute props fuel text2

/-! ### Coordinate path sanitizer (maven.py lines 24-41) -/

/-- Python `s.replace("..", "")`: left-to-right, non-overlapping removal in a
single pass. -/
def removeDotDot : Str → Str
  | '.' :: '.' :: rest => removeDotDot rest
  | c :: rest => c :: removeDotDot rest
  | [] => []

/-- Python `s.replace(c, "")` for a one-character pattern. -/
def removeChar (c : Char) (s : Str) : Str := s.filter (fun d => d ≠ c)

/-- Python `s.replace(".", os_path.sep)` with the POSIX separator `/`. -/
def dotsToSep (s : Str) : Str := s.map (fun c => if c = '.' then '/' else c)

/-- `_quote_groupId_path` (maven.py lines 24-28). -/
def quote_groupId_path (groupId : Str) : Str :=
  removeChar '='
    (removeChar '?' (removeChar ':' (dotsToSep (removeDotDot groupId))))

/-- `_quote_artifactId_path` (maven.py lines 31-35). -/
def quote_artifactId_path (artifactId : Str) : Str :=
  removeChar '='
    (removeChar '?'
      (removeChar ':'
        (removeChar '\\' (removeChar '/' (removeDotDot artifactId)))))

/-- `_quote_version_path` (maven.py lines 38-41). -/
def quote_version_path (version : Str) : Str :=
  removeChar '='
    (removeChar '?'
      (removeChar ':'
        (removeChar '\\' (removeChar '/' (removeDotDot version)))))

/-! ### URL construction (maven.py lines 1, 17-21, 195-197) -/

/-- UTF-8 bytes of one character (as used by `urllib.parse.quote`). -/
def utf8Bytes (c : Char) : List Nat :=
  let n := c.toNat
  if n < 128 then [n]
  else if n < 2048 then [192 + n / 64, 128 + n % 64]
  else if n < 65536 then [224 + n / 4096, 128 + (n / 64) % 64, 128 + n % 64]
  else [240 + n / 262144, 128 + (n / 4096) % 64, 128 + (n / 64) % 64,
        128 + n % 64]

/-- Uppercase hexadecimal digit. -/
def hexDigit (n : Nat) : Char :=
  if n < 10 then Char.ofNat (48 + n) else Char.ofNat (55 + n)

/-- Bytes left unescaped by `urllib.parse.quote` with the default
`safe="/"`: unreserved characters plus `/`. -/
def urlSafeByte (b : Nat) : Bool :=
  (65 ≤ b && b ≤ 90) || (97 ≤ b && b ≤ 122) || (48 ≤ b && b ≤ 57) ||
    b = 95 || b = 46 || b = 45 || b = 126 || b = 47

/-- Percent-encoding of one byte. -/
def quoteByte (b : Nat) : Str :=
  if urlSafeByte b then [Char.ofNat b]
  else ['%', hexDigit (b / 16), hexDigit (b % 16)]

/-- `urllib.parse.quote` (imported as `parse_url` in maven.py line 1). -/
def parse_url (s : Str) : Str :=
  ((s.map utf8Bytes).flatten.map quoteByte).flatten

/-- `get_package_page_url` (maven.py lines 17-21). -/
def get_package_page_url (repo_base groupId artifactId : Str) : Str :=
  let g := parse_url (dotsToSep groupId)
  let a := parse_url artifactId
  repo_base ++ strL "/" ++ g ++ strL "/" ++ a

/-! ### Data model (maven.py lines 96-116, 157-184, 284-296) -/

/-- `MavenPackageMeta.__init__` state (groupId, artifactId, repo). -/
structure MavenPackageMeta where
  groupId : Str
  artifactId : Str
  repo : Str
deriving DecidableEq, Repr

/-- `MavenPackageMeta._base_url`, computed in `__init__` (maven.py 101). -/
def MavenPackageMeta.base_url (m : MavenPackageMeta) : Str :=
  get_package_page_url m.repo m.groupId m.artifactId

/-- `MavenPackageMeta.__eq__` (maven.py lines 104-107), for two `Meta`
arguments (the `isinstance` guard passes).  The second conjunct compares
`self.artifactId` with `value.groupId`, exactly as the source does. -/
def metaEq (a b : MavenPackageMeta) : Bool :=
  a.groupId == b.groupId && a.artifactId == b.groupId

/-- `MavenPackageMeta.__hash__` (maven.py lines 109-110), parameterized by
the process's string-hash function `hs` (CPython guarantees only that equal
strings hash equally). -/
def metaHash (hs : Str → Int) (m : MavenPackageMeta) : Int :=
  hs m.groupId + hs m.artifactId

/-- A `MavenPackage` whose version resolution has already happened (the
`_version` field holds the concrete resolved string). -/
structure MavenPackage where
  meta : MavenPackageMeta
  version : Str
deriving DecidableEq, Repr

/-- `MavenPackage.__eq__` (maven.py lines 178-181) on resolved packages. -/
def pkgEq (p q : MavenPackage) : Bool :=
  metaEq p.meta q.meta && p.version == q.version

/-- `MavenPackage.__hash__` (maven.py lines 183-184) on resolved packages. -/
def pkgHash (hs : Str → Int) (p : MavenPackage) : Int :=
  metaHash hs p.meta + hs p.version

/-- `MavenDependencyPackage` (maven.py lines 284-296): a package plus the
`scope` and `optional` attributes set by `get_dependencies`. -/
structure MavenDependencyPackage where
  meta : MavenPackageMeta
  version : Str
  scope : Str
  optional : Bool
deriving DecidableEq, Repr

/-- `MavenDependencyPackage.__eq__` = the inherited `MavenPackage.__eq__`
(scope and optional are not compared). -/
def depPkgEq (a b : MavenDependencyPackage) : Bool :=
  metaEq a.meta b.meta && a.version == b.version

/-! ### Version resolution (maven.py lines 186-197) -/

/-- Python `str.isspace` characters (the ASCII ones). -/
def pySpace (c : Char) : Bool :=
  c = ' ' || c = '\t' || c = '\n' || c = '\x0b' || c = '\x0c' || c = '\r'

/-- Python `s.strip()`. -/
def pyStrip (s : Str) : Str :=
  ((s.dropWhile pySpace).reverse.dropWhile pySpace).reverse

/-- Python `s.lower()` (ASCII case folding, which covers the scope and
boolean strings the code compares). -/
def pyLower (s : Str) : Str := s.map Char.toLower

/-- The metadata answers the repository would give for a coordinate: the
text of the first `latest` and `release` elements of its
`maven-metadata.xml` (`get_latest_version` / `get_release_version`,
maven.py lines 139-147, modelled as an environment since they come from
the network or the on-disk cache). -/
structure VersionEnv where
  latest : MavenPackageMeta → Str
  release : MavenPackageMeta → Str

/-- `MavenPackage._get_version` (maven.py lines 186-193): `None`/blank
becomes `"release"`, then `"latest"`/`"release"` are resolved through the
metadata; any other string is returned unchanged.  The source also writes
the result back into `self._version`; callers of this model thread the
returned value wherever the source reads `self._version` afterwards. -/
def get_version (env : VersionEnv) (meta : MavenPackageMeta)
    (v0 : Option Str) : Str :=
  let v1 := match v0 with
    | none => strL "release"
    | some s => if pyStrip s = [] then strL "release" else s
  if v1 = strL "latest" then env.latest meta
  else if v1 = strL "release" then env.release meta
  else v1

/-- `MavenPackage._get_package_file_url` (maven.py lines 195-197). -/
def get_package_file_url (env : VersionEnv) (meta : MavenPackageMeta)
    (v0 : Option Str) (pfix : Str) : Str :=
  let version := get_version env meta v0
  meta.base_url ++ strL "/" ++ version ++ strL "/" ++ meta.artifactId ++
    strL "-" ++ version ++ pfix

/-! ### Dependency extraction (maven.py lines 220-268)

The pom document is consumed through `ElementTree` queries only; the claims
treat the parsed XML abstractly, so a pom is modelled as what those queries
return: the `(tag, text)` pairs produced by iterating the `properties`
element (when present), and the list of `dependency` entries, each carrying
the text of its `groupId`/`artifactId` elements and the optional text of
its `version`/`scope`/`optional` elements. -/

structure DepEntry where
  groupId : Str
  artifactId : Str
  versionText : Option Str
  scopeText : Option Str
  optionalText : Option Str
deriving DecidableEq, Repr

structure Pom where
  propertiesBlock : Option (List (Str × Option Str))
  deps : List DepEntry
deriving Repr

/-- The property table built at maven.py lines 224-232: the three implicit
`project.*` entries (using the parent's `_version`, already resolved by the
`_get_pom` call on line 222), overlaid by the declared properties with
their text stripped (`""` when the element has no text). -/
def buildProperties (meta : MavenPackageMeta) (resolvedVersion : Str)
    (block : Option (List (Str × Option Str))) : List (Str × Str) :=
  let d := dictInsert [] (strL "project.version") resolvedVersion
  let d := dictInsert d (strL "project.groupId") meta.groupId
  let d := dictInsert d (strL "project.artifactId") meta.artifactId
  match block with
  | none => d
  | some prs =>
    prs.foldl (fun d p =>
      dictInsert d p.1 (match p.2 with
        | some t => pyStrip t
        | none => [])) d

/-- The body of the `for dep in ...` loop of `get_dependencies`
(maven.py lines 234-259), building one `MavenDependencyPackage`.  The
substitutions use fueled `parse_property_value`; `none` models the
source diverging inside a substitution. -/
def makeDependency (fuel : Nat) (props : List (Str × Str))
    (meta : MavenPackageMeta) (resolvedVersion : Str) (e : DepEntry) :
    Option MavenDependencyPackage :=
  match parse_property_value props fuel e.groupId with
  | none => none
  | some groupId =>
    match parse_property_value props fuel e.artifactId with
    | none => none
    | some artifactId =>
      let version? : Option Str :=
        match e.versionText with
        | some vt => parse_property_value props fuel vt
        | none =>
          some (if groupId = meta.groupId then resolvedVersion
                else strL "release")
      match version? with
      | none => none
      | some version =>
        let scope := match e.scopeText with
          | some s => s
          | none => strL "compile"
        let opt := match e.optionalText with
          | some t => pyLower t == strL "true"
          | none => false
        some ⟨⟨groupId, artifactId, meta.repo⟩, version, scope, opt⟩

/-- `Option`-valued map used to run the dependency loop. -/
def optMap (f : α → Option β) : List α → Option (List β)
  | [] => some []
  | a :: l =>
    match f a with
    | none => none
    | some b =>
      match optMap f l with
      | none => none
      | some bs => some (b :: bs)

/-- `MavenPackage.get_dependencies` (maven.py lines 220-260).  The call to
`self._get_pom()` on line 222 invokes `self._get_version()` (line 201),
which resolves and stores the concrete version; both the implicit
`project.version` property (line 225) and the same-group default
(line 246) therefore read the resolved string. -/
def get_dependencies (env : VersionEnv) (fuel : Nat)
    (meta : MavenPackageMeta) (v0 : Option Str) (pom : Pom) :
    Option (List MavenDependencyPackage) :=
  let resolvedVersion := get_version env meta v0
  let props := buildProperties meta resolvedVersion pom.propertiesBlock
  optMap (makeDependency fuel props meta resolvedVersion) pom.deps

/-- `MavenPackage.asDependencyPackage` (maven.py lines 262-268): the method
constructs and populates a `MavenDependencyPackage` but has no `return`
statement, so Python returns `None`. -/
def asDependencyPackage (p : MavenPackage) (optional : Bool) (scope : Str) :
    Option MavenDependencyPackage :=
  let pkg : MavenDependencyPackage := ⟨p.meta, p.version, scope, optional⟩
  none

/-! ### Cache paths and the artifact fetcher (maven.py lines 7-10, 57-61,
270-281) -/

/-- POSIX `os.path.join` for a relative right operand. -/
def pathJoin (a b : Str) : Str := a ++ strL "/" ++ b

/-- `CACHE_JAR_DIR` (maven.py lines 7, 10); `cwd` models `os.getcwd()`. -/
def CACHE_JAR_DIR (cwd : Str) : Str :=
  pathJoin (pathJoin cwd (strL ".mvn_cache")) (strL "jar")

/-- `get_jar_cache_path` (maven.py lines 57-61).  The sanitized group is
computed by the source but does not appear in the returned path. -/
def get_jar_cache_path (cwd groupId artifactId version pfix : Str) : Str :=
  let _groupId := quote_groupId_path groupId
  let artifactId := quote_artifactId_path artifactId
  let version := quote_version_path version
  pathJoin (CACHE_JAR_DIR cwd)
    (artifactId ++ strL "-" ++ version ++ pfix ++ strL ".jar")

/-- What one `urlopen` of a jar URL can do: return bytes, raise
`HTTPError` (the handler on maven.py line 276 catches it), or raise any
other exception (which propagates). -/
inductive NetResult where
  | ok (data : Str)
  | httpError
  | fatal
deriving Repr

/-- The local filesystem as the artifact fetcher sees it: the set of
existing files with their contents, and the set of directories created
by `makedirs`. -/
structure FS where
  files : List (Str × Str)
  dirs : List Str
deriving Repr

/-- `os.path.dirname`. -/
def dirname (p : Str) : Str :=
  ((p.reverse.dropWhile (fun c => c ≠ '/')).drop 1).reverse

/-- `MavenPackage.cache_jar` (maven.py lines 270-281), returning the flag,
the filesystem after the call and the number of network requests made, or
`Except.error` when a non-`HTTPError` exception propagates. -/
def cache_jar (env : VersionEnv) (net : Str → NetResult) (cwd : Str)
    (meta : MavenPackageMeta) (v0 : Option Str) (pfix : Str) (fs : FS) :
    Except Unit (Bool × FS × Nat) :=
  let cache_path :=
    get_jar_cache_path cwd meta.groupId meta.artifactId
      (get_version env meta v0) pfix
  if (fs.files.lookup cache_path).isSome then Except.ok (true, fs, 0)
  else
    let url := get_package_file_url env meta v0 (pfix ++ strL ".jar")
    match net url with
    | NetResult.httpError => Except.ok (false, fs, 1)
    | NetResult.fatal => Except.error ()
    | NetResult.ok data =>
      Except.ok (true,
        ⟨(cache_path, data) :: fs.files, dirname cache_path :: fs.dirs⟩, 1)

/-! ### The dependency graph walker (__main__.py lines 4-16)

`walk_dependencies(pkg, indent=0, processed=set())` iterates
`pkg.get_dependencies()` and, for each dependency with compile scope, not
optional and not in `processed`, adds it to `processed` and calls
`walk_dependencies(dep, indent + 1)` — WITHOUT passing `processed`, so
every recursive call uses the one module-level default set.
(`dump_dependencies` is identical up to printing.)

The model takes `get_dependencies` as a function `deps` on packages (its
network side is irrelevant here), represents both Python sets as lists
whose membership test is `__eq__` — faithful whenever `__hash__` agrees
with `__eq__` on the packages involved, as in the concrete graphs used
below — and consumes one unit of fuel per recursion level.  Each call
returns the final default set and the trace of dependencies it recursed
into. -/

/-- `dep.scope.lower() == "compile" and (not dep.optional) and dep not in
processed` (__main__.py lines 6 and 14). -/
def eligible (dep : MavenDependencyPackage)
    (processed : List MavenDependencyPackage) : Bool :=
  pyLower dep.scope == strL "compile" && !dep.optional &&
    !(processed.any (fun q => depPkgEq q dep))

/-- A recursive (depth ≥ 1) call of `walk_dependencies`: the set consulted
and updated is the shared default set `D`. -/
def walkDefault (deps : MavenDependencyPackage → List MavenDependencyPackage) :
    Nat → MavenDependencyPackage → List MavenDependencyPackage →
    Option (List MavenDependencyPackage × List MavenDependencyPackage)
  | 0, _, _ => none
  | fuel + 1, pkg, D =>
    (deps pkg).foldl
      (fun acc dep =>
        match acc with
        | none => none
        | some (D, trace) =>
          if eligible dep D then
            match walkDefault deps fuel dep (D ++ [dep]) with
            | none => none
            | some (D2, trace2) => some (D2, trace ++ dep :: trace2)
          else some (D, trace))
      (some (D, []))

/-- The top-level call `walk_dependencies(pkg, 0, callerSet)`: the
eligibility test and the insertion use the caller-seeded set `S`, but each
recursion runs `walkDefault` on the module-level default set `D`.  Returns
the final `S`, the final `D` and the trace of expanded dependencies. -/
def walk_dependencies
    (deps : MavenDependencyPackage → List MavenDependencyPackage)
    (fuel : Nat) (pkg : MavenDependencyPackage)
    (S D : List MavenDependencyPackage) :
    Option (List MavenDependencyPackage × List MavenDependencyPackage ×
      List MavenDependencyPackage) :=
  (deps pkg).foldl
    (fun acc dep =>
      match acc with
      | none => none
      | some (S, D, trace) =>
        if eligible dep S then
          match walkDefault deps fuel dep D with
          | none => none
          | some (D2, trace2) =>
            some (S ++ [dep], D2, trace ++ dep :: trace2)
        else some (S, D, trace))
    (some (S, D, []))

/-! ### Lemmas about the string scan -/

theorem strFindAux_prefix_of_eq {pat t : Str} {i : Nat}
    (h : strFindAux pat t = some i) : pat.isPrefixOf (t.drop i) = true := by
  induction t generalizing i with
  | nil =>
    unfold strFindAux at h
    by_cases hp : pat.isEmpty = true
    · rw [if_pos hp] at h
      injection h with h0
      subst h0
      simp [List.isEmpty_iff.mp hp]
    · rw [if_neg hp] at h
      simp at h
  | cons c rest ih =>
    unfold strFindAux at h
    by_cases hp : pat.isPrefixOf (c :: rest) = true
    · rw [if_pos hp] at h
      injection h with h0
      subst h0
      exact hp
    · rw [if_neg hp] at h
      cases hj : strFindAux pat rest with
      | none => rw [hj] at h; simp at h
      | some j =>
        rw [hj] at h
        simp only [Option.map_some'] at h
        injection h with h0
        subst h0
        simpa using ih hj

theorem strFindAux_drop {pat t : Str} {e : Nat}
    (h : strFindAux pat t = some e) :
    ∀ n, n ≤ e → strFindAux pat (t.drop n) = some (e - n) := by
  induction t generalizing e with
  | nil =>
    intro n hn
    unfold strFindAux at h
    by_cases hp : pat.isEmpty = true
    · rw [if_pos hp] at h
      injection h with h0
      subst h0
      have hn0 : n = 0 := Nat.le_zero.mp hn
      subst hn0
      simp [strFindAux, hp]
    · rw [if_neg hp] at h
      simp at h
  | cons c rest ih =>
    intro n hn
    match n with
    | 0 => simpa using h
    | m + 1 =>
      unfold strFindAux at h
      by_cases hp : pat.isPrefixOf (c :: rest) = true
      · rw [if_pos hp] at h
        injection h with h0
        omega
      · rw [if_neg hp] at h
        cases hj : strFindAux pat rest with
        | none => rw [hj] at h; simp at h
        | some j =>
          rw [hj] at h
          simp only [Option.map_some'] at h
          injection h with h0
          have hmj : m ≤ j := by omega
          have hres := ih hj m hmj
          have hdrop : (c :: rest).drop (m + 1) = rest.drop m := rfl
          rw [hdrop, hres]
          congr 1
          omega

theorem strFindAux_none_of_notMem {a : Char} {p s : Str} (h : a ∉ s) :
    strFindAux (a :: p) s = none := by
  induction s with
  | nil => simp [strFindAux]
  | cons c rest ih =>
    have hca : c ≠ a := fun hc => h (hc ▸ List.mem_cons_self c rest)
    have hrest : a ∉ rest := fun hr => h (List.mem_cons_of_mem c hr)
    have hp : (a :: p).isPrefixOf (c :: rest) = false := by
      simp [List.isPrefixOf, Ne.symm hca]
    simp [strFindAux, hp, ih hrest]

theorem strFindAux_append {a : Char} {p l s : Str} (h : a ∉ l)
    (hpre : (a :: p).isPrefixOf s = true) :
    strFindAux (a :: p) (l ++ s) = some l.length := by
  induction l with
  | nil =>
    match s, hpre with
    | c :: rest, hpre => simp [strFindAux, hpre]
  | cons c rest ih =>
    have hca : c ≠ a := fun hc => h (hc ▸ List.mem_cons_self c rest)
    have hrest : a ∉ rest := fun hr => h (List.mem_cons_of_mem c hr)
    have hp : (a :: p).isPrefixOf (c :: (rest ++ s)) = false := by
      simp [List.isPrefixOf, Ne.symm hca]
    simp [strFindAux, hp, ih hrest]

theorem isPrefixOf_two {a b : Char} {l : Str}
    (h : List.isPrefixOf [a, b] l = true) : ∃ s, l = a :: b :: s := by
  match l with
  | [] => simp [List.isPrefixOf] at h
  | [c] => simp [List.isPrefixOf] at h
  | c :: d :: rest =>
    simp only [List.isPrefixOf, Bool.and_eq_true, beq_iff_eq] at h
    exact ⟨rest, by simp [h.1, h.2.1]⟩

theorem pySlice_middle (l m r : Str) :
    pySlice (l ++ m ++ r) l.length (l.length + m.length) = m := by
  unfold pySlice
  rw [List.append_assoc, List.take_append, List.take_left, List.drop_left]

/-! ### Well-formed placeholder templates

`parse_property_value` does terminate on texts that alternate between
plain literals and `$\x7bname\x7d` placeholders, provided literals, names
and every property value are free of `$`, `\x7b` and `\x7d`.  This section
proves that, pinning down the fuel the loop needs (one iteration per
placeholder) and the value it returns. -/

/-- A character that can appear in a literal, a name or a property value
without disturbing the scan. -/
def goodChar (c : Char) : Bool :=
  !(c == dollarC) && !(c == lbraceC) && !(c == rbraceC)

/-- A brace- and dollar-free string. -/
def cleanStr (s : Str) : Bool := s.all goodChar

/-- All values of a property table are brace- and dollar-free. -/
def cleanProps (props : List (Str × Str)) : Bool :=
  props.all (fun p => cleanStr p.2)

/-- A text alternating literals and placeholders:
`lit₀ $\x7b name₀ \x7d lit₁ $\x7b name₁ \x7d ... litₖ`. -/
inductive Template where
  | last (lit : Str)
  | seg (lit : Str) (name : Str) (rest : Template)

/-- The text a template denotes. -/
def Template.render : Template → Str
  | .last l => l
  | .seg l n r => l ++ dollarBrace ++ n ++ [rbraceC] ++ r.render

/-- The expected substitution result: every placeholder replaced by its
table value (empty when absent). -/
def Template.subst (props : List (Str × Str)) : Template → Str
  | .last l => l
  | .seg l n r => l ++ dictGet props n ++ Template.subst props r

/-- Number of placeholders. -/
def Template.count : Template → Nat
  | .last _ => 0
  | .seg _ _ r => r.count + 1

/-- All literals and names are brace- and dollar-free. -/
def Template.clean : Template → Bool
  | .last l => cleanStr l
  | .seg l n r => cleanStr l && cleanStr n && r.clean

/-- Extending the leading literal of a template. -/
def Template.withLit (x : Str) : Template → Template
  | .last l => .last (x ++ l)
  | .seg l n r => .seg (x ++ l) n r

theorem Template.render_withLit (x : Str) (t : Template) :
    (t.withLit x).render = x ++ t.render := by
  cases t <;> simp [Template.withLit, Template.render, List.append_assoc]

theorem Template.subst_withLit (props : List (Str × Str)) (x : Str)
    (t : Template) :
    (t.withLit x).subst props = x ++ t.subst props := by
  cases t <;> simp [Template.withLit, Template.subst, List.append_assoc]

theorem Template.count_withLit (x : Str) (t : Template) :
    (t.withLit x).count = t.count := by
  cases t <;> rfl

theorem Template.clean_withLit {x : Str} {t : Template}
    (hx : cleanStr x = true) (ht : t.clean = true) :
    (t.withLit x).clean = true := by
  cases t <;> simp_all [Template.withLit, Template.clean, cleanStr]

theorem goodChar_spec {c : Char} (h : goodChar c = true) :
    c ≠ dollarC ∧ c ≠ lbraceC ∧ c ≠ rbraceC := by
  have h2 := h
  simp only [goodChar, Bool.and_eq_true, Bool.not_eq_true', beq_eq_false_iff_ne,
    ne_eq] at h2
  exact ⟨h2.1.1, h2.1.2, h2.2⟩

theorem notMem_of_cleanStr {s : Str} (h : cleanStr s = true) {a : Char}
    (ha : goodChar a = false) : a ∉ s := by
  intro hm
  have := (List.all_eq_true.mp h) a hm
  rw [this] at ha
  cases ha

theorem dollar_notMem_of_cleanStr {s : Str} (h : cleanStr s = true) :
    dollarC ∉ s :=
  notMem_of_cleanStr h (by decide)

theorem rbrace_notMem_of_cleanStr {s : Str} (h : cleanStr s = true) :
    rbraceC ∉ s :=
  notMem_of_cleanStr h (by decide)

theorem cleanStr_append {a b : Str} (ha : cleanStr a = true)
    (hb : cleanStr b = true) : cleanStr (a ++ b) = true := by
  simp [cleanStr, List.all_append, ha, hb, cleanStr] at *
  exact ⟨ha, hb⟩

theorem dictGet_clean {props : List (Str × Str)}
    (hp : cleanProps props = true) (k : Str) :
    cleanStr (dictGet props k) = true := by
  induction props with
  | nil => rfl
  | cons p rest ih =>
    have hall := List.all_eq_true.mp hp
    have hph : cleanStr p.2 = true := hall p (List.mem_cons_self p rest)
    have hrest : cleanProps rest = true := by
      exact List.all_eq_true.mpr
        (fun q hq => hall q (List.mem_cons_of_mem p hq))
    unfold dictGet List.lookup
    by_cases hk : k == p.1
    · simp [hk, hph]
    · simp only [Bool.not_eq_true] at hk
      simp only [hk]
      exact ih hrest

theorem pyFind_dollarBrace_concat {X : Str} (hX : cleanStr X = true)
    (s : Str) :
    pyFind (X ++ dollarBrace ++ s) dollarBrace = some X.length := by
  have hd : dollarC ∉ X := dollar_notMem_of_cleanStr hX
  have hform : X ++ dollarBrace ++ s = X ++ (dollarC :: lbraceC :: s) := by
    simp [dollarBrace, List.append_assoc]
  rw [hform]
  unfold pyFind dollarBrace
  exact strFindAux_append hd (by simp [List.isPrefixOf])

theorem pyFind_rbrace_concat {L : Str} (h : rbraceC ∉ L) (s : Str) :
    pyFind (L ++ rbraceC :: s) [rbraceC] = some L.length := by
  unfold pyFind
  exact strFindAux_append h (by simp [List.isPrefixOf])

theorem substOnce_render_seg (props : List (Str × Str)) {X n : Str}
    (R : Str) (hX : cleanStr X = true) (hn : cleanStr n = true) :
    substOnce props (X ++ dollarBrace ++ n ++ [rbraceC] ++ R) X.length =
      X ++ dictGet props n ++ R := by
  have hrb : rbraceC ∉ X ++ dollarBrace ++ n := by
    intro hm
    rcases List.mem_append.mp hm with hm1 | hm2
    · rcases List.mem_append.mp hm1 with hm3 | hm4
      · exact rbrace_notMem_of_cleanStr hX hm3
      · revert hm4; decide
    · exact rbrace_notMem_of_cleanStr hn hm2
  have hshape : X ++ dollarBrace ++ n ++ [rbraceC] ++ R =
      (X ++ dollarBrace ++ n) ++ rbraceC :: R := by
    simp [List.append_assoc]
  have hfind : pyFind (X ++ dollarBrace ++ n ++ [rbraceC] ++ R) [rbraceC] =
      some (X.length + 2 + n.length) := by
    rw [hshape, pyFind_rbrace_concat hrb]
    congr 1
    simp [dollarBrace]
    omega
  have h1 : (X ++ dollarBrace ++ n ++ [rbraceC] ++ R).take X.length = X := by
    have hform : X ++ dollarBrace ++ n ++ [rbraceC] ++ R =
        X ++ (dollarBrace ++ n ++ [rbraceC] ++ R) := by
      simp [List.append_assoc]
    rw [hform, List.take_left]
  have h2 : pySlice (X ++ dollarBrace ++ n ++ [rbraceC] ++ R)
      (X.length + 2) (X.length + 2 + n.length) = n := by
    have hform : X ++ dollarBrace ++ n ++ [rbraceC] ++ R =
        (X ++ dollarBrace) ++ n ++ ([rbraceC] ++ R) := by
      simp [List.append_assoc]
    have hlen : (X ++ dollarBrace).length = X.length + 2 := by
      simp [dollarBrace]
    rw [hform]
    have hm := pySlice_middle (X ++ dollarBrace) n ([rbraceC] ++ R)
    rwa [hlen] at hm
  have h3 : (X ++ dollarBrace ++ n ++ [rbraceC] ++ R).drop
      (X.length + 2 + n.length + 1) = R := by
    have hlen : (X ++ dollarBrace ++ n ++ [rbraceC]).length =
        X.length + 2 + n.length + 1 := by
      simp [dollarBrace]
      omega
    rw [← hlen, List.drop_left]
  unfold substOnce
  rw [hfind]
  simp only [h1, h2, h3]

theorem ppv_render_withLit (props : List (Str × Str))
    (hp : cleanProps props = true) :
    ∀ (t : Template) (x : Str), cleanStr x = true → t.clean = true →
      parse_property_value props (t.count + 1) ((t.withLit x).render) =
        some ((t.withLit x).subst props) := by
  intro t
  induction t with
  | last l =>
    intro x hx ht
    have hcl : cleanStr (x ++ l) = true := cleanStr_append hx ht
    have hnone : pyFind (x ++ l) dollarBrace = none := by
      unfold pyFind dollarBrace
      exact strFindAux_none_of_notMem (dollar_notMem_of_cleanStr hcl)
    simp [Template.withLit, Template.render, Template.subst, Template.count,
      parse_property_value, hnone]
  | seg l n r ih =>
    intro x hx ht
    have hparts : (cleanStr l = true ∧ cleanStr n = true) ∧ r.clean = true := by
      simpa [Template.clean, Bool.and_eq_true] using ht
    obtain ⟨⟨hl, hn⟩, hr⟩ := hparts
    have hX : cleanStr (x ++ l) = true := cleanStr_append hx hl
    have hrender : ((Template.seg l n r).withLit x).render =
        (x ++ l) ++ dollarBrace ++ n ++ [rbraceC] ++ r.render := by
      simp [Template.withLit, Template.render]
    have hcount : (Template.seg l n r).count + 1 = r.count + 1 + 1 := rfl
    rw [hrender, hcount]
    have hfinddB : pyFind ((x ++ l) ++ dollarBrace ++ n ++ [rbraceC] ++
        r.render) dollarBrace = some (x ++ l).length := by
      have hform : (x ++ l) ++ dollarBrace ++ n ++ [rbraceC] ++ r.render =
          (x ++ l) ++ dollarBrace ++ (n ++ [rbraceC] ++ r.render) := by
        simp [List.append_assoc]
      rw [hform]
      exact pyFind_dollarBrace_concat hX _
    unfold parse_property_value
    rw [hfinddB]
    show parse_property_value props (r.count + 1)
        (substOnce props ((x ++ l) ++ dollarBrace ++ n ++ [rbraceC] ++
          r.render) (x ++ l).length) =
      some (Template.subst props (Template.withLit x (Template.seg l n r)))
    rw [substOnce_render_seg props r.render hX hn]
    have hxv : cleanStr ((x ++ l) ++ dictGet props n) = true :=
      cleanStr_append hX (dictGet_clean hp n)
    have hres := ih ((x ++ l) ++ dictGet props n) hxv hr
    rw [Template.render_withLit, Template.subst_withLit] at hres
    have hassoc : (x ++ l) ++ dictGet props n ++ r.render =
        ((x ++ l) ++ dictGet props n) ++ r.render := rfl
    rw [hassoc, hres]
    simp [Template.withLit, Template.subst, List.append_assoc]

/-! ### Claim C4: `MavenPackageMeta.__eq__` -/

/-- C4 counterexample: the claim says `a == b` holds exactly when the
groups are equal; but for metas with equal groups `"g"` and artifacts
`"x"` and `"y"`, the source's `__eq__` returns `False` (its second
conjunct compares `self.artifactId` with `value.groupId`). -/
theorem metaEq_not_determined_by_group :
    (⟨strL "g", strL "x", strL "r"⟩ : MavenPackageMeta).groupId =
      (⟨strL "g", strL "y", strL "r"⟩ : MavenPackageMeta).groupId ∧
    metaEq ⟨strL "g", strL "x", strL "r"⟩ ⟨strL "g", strL "y", strL "r"⟩ =
      false := by
  decide

/-- C4 (amended): `MavenPackageMeta.__eq__` tests group equality in its
first conjunct and compares `self.artifactId` against `value.groupId` in
its second (the artifact components are never compared with each other),
so `a == b` holds exactly when `a.groupId = b.groupId` and
`a.artifactId = b.groupId`. -/
theorem metaEq_iff_group_eq_and_artifact_eq_group :
    ∀ a b : MavenPackageMeta,
      metaEq a b = true ↔ a.groupId = b.groupId ∧ a.artifactId = b.groupId := by
  intro a b
  simp [metaEq]

/-! ### Claim C5: equality versus hashing -/

/-- The string-hash function used in the concrete counterexample; any
function is a legitimate instance of CPython's (content-determined,
otherwise unspecified) string hash. -/
def lengthHash (s : Str) : Int := s.length

theorem metaEq_hash_aux (hs : Str → Int) (a b : MavenPackageMeta)
    (hb : b.artifactId = b.groupId) (heq : metaEq a b = true) :
    metaHash hs a = metaHash hs b := by
  have h2 : a.groupId = b.groupId ∧ a.artifactId = b.groupId := by
    simpa [metaEq] using heq
  unfold metaHash
  rw [h2.1, h2.2, hb]

/-- C5 counterexample: under the (latent-`__eq__`-bug) equality, the
packages `(g, g, r, version 1)` and `(g, xy, r, version 1)` compare equal
yet hash differently for the exhibited string hash, so `p == q` does NOT
imply `hash(p) == hash(q)`; likewise at the meta level. -/
theorem pkgEq_true_but_hash_differs :
    metaEq ⟨strL "g", strL "g", strL "r"⟩ ⟨strL "g", strL "xy", strL "r"⟩ =
      true ∧
    metaHash lengthHash ⟨strL "g", strL "g", strL "r"⟩ ≠
      metaHash lengthHash ⟨strL "g", strL "xy", strL "r"⟩ ∧
    pkgEq ⟨⟨strL "g", strL "g", strL "r"⟩, strL "1"⟩
        ⟨⟨strL "g", strL "xy", strL "r"⟩, strL "1"⟩ = true ∧
    pkgHash lengthHash ⟨⟨strL "g", strL "g", strL "r"⟩, strL "1"⟩ ≠
      pkgHash lengthHash ⟨⟨strL "g", strL "xy", strL "r"⟩, strL "1"⟩ := by
  decide

/-- C5 (amended): equality implies equal hashes for every string-hash
function whenever the right-hand operand's artifactId equals its groupId
(the bug in `__eq__` — artifact compared against the other's group — is
then harmless); this holds at both the meta and the package level. -/
theorem eq_implies_hash_eq_on_selfnamed :
    (∀ (hs : Str → Int) (a b : MavenPackageMeta),
        b.artifactId = b.groupId → metaEq a b = true →
        metaHash hs a = metaHash hs b) ∧
    (∀ (hs : Str → Int) (p q : MavenPackage),
        q.meta.artifactId = q.meta.groupId → pkgEq p q = true →
        pkgHash hs p = pkgHash hs q) := by
  refine ⟨metaEq_hash_aux, ?_⟩
  intro hs p q hq heq
  have h2 : metaEq p.meta q.meta = true ∧ p.version = q.version := by
    simpa [pkgEq] using heq
  unfold pkgHash
  rw [metaEq_hash_aux hs p.meta q.meta hq h2.1, h2.2]

/-- C5 witness: the amended theorem applied at concrete self-named
packages. -/
theorem eq_implies_hash_eq_on_selfnamed_witness :
    ((⟨⟨strL "h", strL "h", strL "r"⟩, strL "2"⟩ :
        MavenPackage).meta.artifactId =
      (⟨⟨strL "h", strL "h", strL "r"⟩, strL "2"⟩ :
        MavenPackage).meta.groupId ∧
      pkgEq ⟨⟨strL "h", strL "h", strL "r"⟩, strL "2"⟩
        ⟨⟨strL "h", strL "h", strL "r"⟩, strL "2"⟩ = true ∧
      pkgHash lengthHash ⟨⟨strL "h", strL "h", strL "r"⟩, strL "2"⟩ =
        pkgHash lengthHash ⟨⟨strL "h", strL "h", strL "r"⟩, strL "2"⟩) ∧
    (metaEq ⟨strL "h", strL "h", strL "r"⟩ ⟨strL "h", strL "h", strL "r"⟩ =
        true ∧
      metaHash lengthHash ⟨strL "h", strL "h", strL "r"⟩ =
        metaHash lengthHash ⟨strL "h", strL "h", strL "r"⟩) :=
  ⟨⟨rfl, by decide,
    eq_implies_hash_eq_on_selfnamed.2 lengthHash
      ⟨⟨strL "h", strL "h", strL "r"⟩, strL "2"⟩
      ⟨⟨strL "h", strL "h", strL "r"⟩, strL "2"⟩ rfl (by decide)⟩,
   ⟨by decide,
    eq_implies_hash_eq_on_selfnamed.1 lengthHash
      ⟨strL "h", strL "h", strL "r"⟩
      ⟨strL "h", strL "h", strL "r"⟩ rfl (by decide)⟩⟩

/-! ### Claim C10: `asDependencyPackage` returns `None` -/

/-- C10: for every receiver and every choice of the optional and scope
arguments, `asDependencyPackage` returns `None` — the constructed and
populated `MavenDependencyPackage` is never returned (the method body has
no `return` statement). -/
theorem asDependencyPackage_returns_none :
    ∀ (p : MavenPackage) (optional : Bool) (scope : Str),
      asDependencyPackage p optional scope = none := by
  intro p o s
  rfl

/-! ### Claim C7: the path sanitizers -/

theorem notMem_removeChar_self (c : Char) (s : Str) : c ∉ removeChar c s := by
  intro h
  have := (List.mem_filter.mp h).2
  simp at this

theorem notMem_removeChar_mono {a : Char} {s : Str} (h : a ∉ s) (c : Char) :
    a ∉ removeChar c s :=
  fun hm => h (List.mem_filter.mp hm).1

theorem dot_notMem_dotsToSep (s : Str) : '.' ∉ dotsToSep s := by
  intro h
  simp only [dotsToSep, List.mem_map] at h
  obtain ⟨c, _, heq⟩ := h
  by_cases h2 : c = '.'
  · rw [if_pos h2] at heq
    cases heq
  · rw [if_neg h2] at heq
    exact h2 heq

/-- C7 counterexample: the input `"...:."` contains `".."`, yet both the
artifact and the version sanitizer map it to exactly `".."` — the single
left-to-right `".."` removal pass leaves `".:."` and the later `":"`
removal rejoins the dots. -/
theorem artifact_sanitizer_can_output_dotdot :
    (pyFind (strL "...:.") (strL "..")).isSome = true ∧
    quote_artifactId_path (strL "...:.") = strL ".." ∧
    (pyFind (quote_artifactId_path (strL "...:.")) (strL "..")).isSome =
      true ∧
    quote_version_path (strL "...:.") = strL ".." := by
  decide

/-- C7 (amended): for every input containing `".."`, the artifact and
version sanitizers never output `/`, `\`, `:`, `?` or `=`, and the group
sanitizer never outputs `".."`, `:`, `?` or `=`; however the artifact and
version outputs may still contain `".."` (character removal can rejoin
dots separated only by removed characters). -/
theorem sanitizers_strip_forbidden_characters :
    ∀ s : Str, (pyFind s (strL "..")).isSome = true →
      ('/' ∉ quote_artifactId_path s ∧ '\\' ∉ quote_artifactId_path s ∧
        ':' ∉ quote_artifactId_path s ∧ '?' ∉ quote_artifactId_path s ∧
        '=' ∉ quote_artifactId_path s) ∧
      ('/' ∉ quote_version_path s ∧ '\\' ∉ quote_version_path s ∧
        ':' ∉ quote_version_path s ∧ '?' ∉ quote_version_path s ∧
        '=' ∉ quote_version_path s) ∧
      (pyFind (quote_groupId_path s) (strL "..") = none ∧
        ':' ∉ quote_groupId_path s ∧ '?' ∉ quote_groupId_path s ∧
        '=' ∉ quote_groupId_path s) := by
  intro s _
  refine ⟨⟨?_, ?_, ?_, ?_, ?_⟩, ⟨?_, ?_, ?_, ?_, ?_⟩, ⟨?_, ?_, ?_, ?_⟩⟩
  · exact notMem_removeChar_mono (notMem_removeChar_mono
      (notMem_removeChar_mono (notMem_removeChar_mono
        (notMem_removeChar_self '/' _) '\\') ':') '?') '='
  · exact notMem_removeChar_mono (notMem_removeChar_mono
      (notMem_removeChar_mono (notMem_removeChar_self '\\' _) ':') '?') '='
  · exact notMem_removeChar_mono
      (notMem_removeChar_mono (notMem_removeChar_self ':' _) '?') '='
  · exact notMem_removeChar_mono (notMem_removeChar_self '?' _) '='
  · exact notMem_removeChar_self '=' _
  · exact notMem_removeChar_mono (notMem_removeChar_mono
      (notMem_removeChar_mono (notMem_removeChar_mono
        (notMem_removeChar_self '/' _) '\\') ':') '?') '='
  · exact notMem_removeChar_mono (notMem_removeChar_mono
      (notMem_removeChar_mono (notMem_removeChar_self '\\' _) ':') '?') '='
  · exact notMem_removeChar_mono
      (notMem_removeChar_mono (notMem_removeChar_self ':' _) '?') '='
  · exact notMem_removeChar_mono (notMem_removeChar_self '?' _) '='
  · exact notMem_removeChar_self '=' _
  · have hdot : '.' ∉ quote_groupId_path s :=
      notMem_removeChar_mono (notMem_removeChar_mono
        (notMem_removeChar_mono (dot_notMem_dotsToSep _) ':') '?') '='
    have hpat : strL ".." = '.' :: ['.'] := rfl
    unfold pyFind
    rw [hpat]
    exact strFindAux_none_of_notMem hdot
  · exact notMem_removeChar_mono
      (notMem_removeChar_mono (notMem_removeChar_self ':' _) '?') '='
  · exact notMem_removeChar_mono (notMem_removeChar_self '?' _) '='
  · exact notMem_removeChar_self '=' _

/-- C7 witness: the amended theorem applied at the concrete input
`"..a:/x"`. -/
theorem sanitizers_strip_forbidden_characters_witness :
    (pyFind (strL "..a:/x") (strL "..")).isSome = true ∧
    ('/' ∉ quote_artifactId_path (strL "..a:/x") ∧
      ':' ∉ quote_groupId_path (strL "..a:/x")) :=
  ⟨by decide,
   (sanitizers_strip_forbidden_characters (strL "..a:/x")
     (by decide)).1.1,
   (sanitizers_strip_forbidden_characters (strL "..a:/x")
     (by decide)).2.2.2.1⟩

/-! ### Claim C9: the pom URL -/

/-- Modelled from the spec: the URL shape the claim (and spec §4.4)
describes, with the version directory directly under the group and NO
artifact directory segment between them. -/
def claimedPomUrl (meta : MavenPackageMeta) (version : Str) : Str :=
  meta.repo ++ strL "/" ++ parse_url (dotsToSep meta.groupId) ++
    strL "/" ++ version ++ strL "/" ++ meta.artifactId ++ strL "-" ++
    version ++ strL ".pom"

/-- Modelled from the spec: §6's URL shape
`{repositoryBase}/{group-with-dots-as-slashes}/{artifact}/{version}/{artifact}-{version}.pom`,
group and artifact percent-encoded. -/
def specPomUrl (meta : MavenPackageMeta) (version : Str) : Str :=
  meta.repo ++ strL "/" ++ parse_url (dotsToSep meta.groupId) ++
    strL "/" ++ parse_url meta.artifactId ++ strL "/" ++ version ++
    strL "/" ++ meta.artifactId ++ strL "-" ++ version ++ strL ".pom"

def envC9 : VersionEnv := ⟨fun _ => strL "L", fun _ => strL "R"⟩

def metaC9 : MavenPackageMeta := ⟨strL "a.b", strL "c", strL "r"⟩

/-- C9 counterexample: for the coordinate (group `a.b`, artifact `c`,
repo `r`) at version `1.0` the code builds
`r/a/b/c/1.0/c-1.0.pom` — the artifact directory segment IS present —
which differs from the claim's artifact-less `r/a/b/1.0/c-1.0.pom`. -/
theorem pom_url_includes_artifact_segment :
    get_package_file_url envC9 metaC9 (some (strL "1.0")) (strL ".pom") =
      strL "r/a/b/c/1.0/c-1.0.pom" ∧
    claimedPomUrl metaC9 (strL "1.0") = strL "r/a/b/1.0/c-1.0.pom" ∧
    get_package_file_url envC9 metaC9 (some (strL "1.0")) (strL ".pom") ≠
      claimedPomUrl metaC9 (strL "1.0") := by
  decide

/-- C9 (amended): for every package with a resolved (non-blank,
non-symbolic) version, the descriptor is fetched from
`<repositoryBaseURL>/<group>/<artifact>/<version>/<artifact>-<version>.pom`
(group dots as path separators, group and artifact percent-encoded) — the
URL path contains the artifact directory segment between group and
version, exactly as spec §6 states. -/
theorem pom_url_matches_spec_section6 :
    ∀ (env : VersionEnv) (meta : MavenPackageMeta) (v : Str),
      pyStrip v ≠ [] → v ≠ strL "latest" → v ≠ strL "release" →
      get_package_file_url env meta (some v) (strL ".pom") =
        specPomUrl meta v := by
  intro env meta v h1 h2 h3
  have hv : get_version env meta (some v) = v := by
    simp [get_version, h1, h2, h3]
  unfold get_package_file_url
  rw [hv]
  unfold specPomUrl MavenPackageMeta.base_url get_package_page_url
  simp [List.append_assoc]

/-- C9 witness: the amended theorem applied at the concrete coordinate. -/
theorem pom_url_matches_spec_section6_witness :
    pyStrip (strL "2.0") ≠ [] ∧
    get_package_file_url envC9 metaC9 (some (strL "2.0")) (strL ".pom") =
      specPomUrl metaC9 (strL "2.0") :=
  ⟨by decide,
   pom_url_matches_spec_section6 envC9 metaC9 (strL "2.0") (by decide)
     (by decide) (by decide)⟩

/-! ### Claim C2: which `\x7d` the substitution pairs with -/

/-- C2 counterexample: on `"\x7d$\x7bx\x7d"` the leftmost `$\x7b` is at
index 1 but the source pairs it with the `\x7d` at index 0 — a `\x7d`
that PRECEDES it — so the loop body leaves the text unchanged (the
placeholder is not spliced out) and the loop never finishes within any
fuel, while the spec's pairing (next `\x7d` after the `$\x7b`) finishes
with `"\x7d1"`. -/
theorem substOnce_uses_preceding_rbrace :
    pyFind (strL "\x7d$\x7bx\x7d") dollarBrace = some 1 ∧
    pyFind (strL "\x7d$\x7bx\x7d") [rbraceC] = some 0 ∧
    substOnce [(strL "x", strL "1")] (strL "\x7d$\x7bx\x7d") 1 =
      strL "\x7d$\x7bx\x7d" ∧
    parse_property_value [(strL "x", strL "1")] 100
      (strL "\x7d$\x7bx\x7d") = none ∧
    specSubstitute [(strL "x", strL "1")] 100 (strL "\x7d$\x7bx\x7d") =
      some (strL "\x7d1") := by
  decide

/-- C2 (amended): each iteration locates the leftmost `$\x7b` and pairs
it with the FIRST `\x7d` of the whole string — which coincides with the
next `\x7d` after the `$\x7b` exactly when no `\x7d` precedes it.  In
that case the iteration looks up the enclosed name (empty string when
absent, never an error) and splices the replacement in place of the whole
placeholder, agreeing with the spec's step. -/
theorem substOnce_splices_at_global_first_rbrace :
    ∀ (props : List (Str × Str)) (text : Str) (idx e : Nat),
      pyFind text dollarBrace = some idx →
      pyFind text [rbraceC] = some e →
      idx < e →
      substOnce props text idx =
        text.take idx ++ dictGet props (pySlice text (idx + 2) e) ++
          text.drop (e + 1) ∧
      specSubstOnce props text idx = some (substOnce props text idx) := by
  intro props text idx e hdb hrb hlt
  have hpre : dollarBrace.isPrefixOf (text.drop idx) = true :=
    strFindAux_prefix_of_eq hdb
  obtain ⟨s, hs⟩ := isPrefixOf_two hpre
  have hge : idx + 2 ≤ e := by
    by_contra hcon
    have he1 : e = idx + 1 := by omega
    have hpre2 : List.isPrefixOf [rbraceC] (text.drop e) = true :=
      strFindAux_prefix_of_eq hrb
    rw [he1] at hpre2
    have hdropsucc : text.drop (idx + 1) = lbraceC :: s := by
      have hd1 : text.drop (idx + 1) = (text.drop idx).drop 1 := by
        rw [List.drop_drop]
      rw [hd1, hs]
      rfl
    rw [hdropsucc] at hpre2
    simp [List.isPrefixOf, rbraceC, lbraceC, Char.ofNat] at hpre2
  have hsub1 : substOnce props text idx =
      text.take idx ++ dictGet props (pySlice text (idx + 2) e) ++
        text.drop (e + 1) := by
    unfold substOnce
    rw [hrb]
  refine ⟨hsub1, ?_⟩
  have hdrop : pyFind (text.drop (idx + 2)) [rbraceC] =
      some (e - (idx + 2)) :=
    strFindAux_drop hrb (idx + 2) hge
  unfold specSubstOnce
  rw [hdrop]
  have he2 : idx + 2 + (e - (idx + 2)) = e := by omega
  show some (text.take idx ++
      dictGet props (pySlice text (idx + 2) (idx + 2 + (e - (idx + 2)))) ++
      text.drop (idx + 2 + (e - (idx + 2)) + 1)) =
    some (substOnce props text idx)
  rw [he2, hsub1]

/-- C2 witness: the amended theorem applied at `"a$\x7bx\x7db"` (leftmost
`$\x7b` at 1, first `\x7d` at 4). -/
theorem substOnce_splices_at_global_first_rbrace_witness :
    pyFind (strL "a$\x7bx\x7db") dollarBrace = some 1 ∧
    pyFind (strL "a$\x7bx\x7db") [rbraceC] = some 4 ∧
    substOnce [(strL "x", strL "1")] (strL "a$\x7bx\x7db") 1 =
      (strL "a$\x7bx\x7db").take 1 ++
        dictGet [(strL "x", strL "1")]
          (pySlice (strL "a$\x7bx\x7db") 3 4) ++
        (strL "a$\x7bx\x7db").drop 5 :=
  ⟨by decide, by decide,
   (substOnce_splices_at_global_first_rbrace [(strL "x", strL "1")]
     (strL "a$\x7bx\x7db") 1 4 (by decide) (by decide) (by decide)).1⟩

/-! ### Claim C3: termination of `parse_property_value` -/

/-- C3 counterexample: with the property table `x ↦ "$\x7bx\x7d"` the
text `"$\x7bx\x7d"` is rewritten to itself by every iteration, so the
loop never terminates: no amount of fuel yields a result.  (This is
exactly the rescan-of-substituted-values situation the spec itself warns
about.) -/
theorem ppv_diverges_on_self_reference :
    pyFind (strL "$\x7bx\x7d") dollarBrace = some 0 ∧
    substOnce [(strL "x", strL "$\x7bx\x7d")] (strL "$\x7bx\x7d") 0 =
      strL "$\x7bx\x7d" ∧
    parse_property_value [(strL "x", strL "$\x7bx\x7d")] 300
      (strL "$\x7bx\x7d") = none := by
  decide

/-- C3 (amended): whenever the loop does return, the result contains no
`$\x7b`; and the loop does terminate — in exactly one iteration per
placeholder — when the text alternates brace/dollar-free literals with
`$\x7bname\x7d` placeholders (brace/dollar-free names) and every property
value is brace/dollar-free, yielding the fully substituted text.  It need
not terminate in general (no cycle guard exists; see the
counterexample). -/
theorem ppv_no_placeholder_left_and_terminates_on_templates :
    (∀ (props : List (Str × Str)) (fuel : Nat) (text r : Str),
        parse_property_value props fuel text = some r →
        pyFind r dollarBrace = none) ∧
    (∀ (props : List (Str × Str)) (t : Template),
        cleanProps props = true → t.clean = true →
        parse_property_value props (t.count + 1) t.render =
          some (t.subst props)) := by
  constructor
  · intro props fuel
    induction fuel with
    | zero =>
      intro text r h
      unfold parse_property_value at h
      cases hf : pyFind text dollarBrace with
      | none =>
        rw [hf] at h
        injection h with h0
        subst h0
        exact hf
      | some idx =>
        rw [hf] at h
        simp at h
    | succ f ih =>
      intro text r h
      unfold parse_property_value at h
      cases hf : pyFind text dollarBrace with
      | none =>
        rw [hf] at h
        injection h with h0
        subst h0
        exact hf
      | some idx =>
        rw [hf] at h
        exact ih _ _ h
  · intro props t hp ht
    have hid : Template.withLit [] t = t := by
      cases t <;> simp [Template.withLit]
    have hres := ppv_render_withLit props hp t [] (by decide) ht
    rwa [hid] at hres

/-- C3 witness: both conjuncts applied at the template
`"a" $\x7b"x"\x7d "b"` over the table `x ↦ "1"`. -/
theorem ppv_terminates_on_templates_witness :
    cleanProps [(strL "x", strL "1")] = true ∧
    (Template.seg (strL "a") (strL "x")
      (Template.last (strL "b"))).clean = true ∧
    parse_property_value [(strL "x", strL "1")]
      ((Template.seg (strL "a") (strL "x")
        (Template.last (strL "b"))).count + 1)
      (Template.seg (strL "a") (strL "x")
        (Template.last (strL "b"))).render =
      some ((Template.seg (strL "a") (strL "x")
        (Template.last (strL "b"))).subst [(strL "x", strL "1")]) ∧
    pyFind (strL "a1b") dollarBrace = none :=
  ⟨by decide, by decide,
   ppv_no_placeholder_left_and_terminates_on_templates.2
     [(strL "x", strL "1")]
     (Template.seg (strL "a") (strL "x") (Template.last (strL "b")))
     (by decide) (by decide),
   ppv_no_placeholder_left_and_terminates_on_templates.1
     [(strL "x", strL "1")] 2 (strL "a$\x7bx\x7db") (strL "a1b")
     (by decide)⟩

/-! ### Claim C6: version inheritance in `get_dependencies` -/

theorem optMap_get {α β : Type} {f : α → Option β} :
    ∀ (l : List α) (r : List β), optMap f l = some r →
      ∀ (i : Nat) (e : α), l.get? i = some e →
        ∃ y, f e = some y ∧ r.get? i = some y := by
  intro l
  induction l with
  | nil =>
    intro r h i e he
    simp at he
  | cons a rest ih =>
    intro r h i e he
    unfold optMap at h
    cases hf : f a with
    | none =>
      rw [hf] at h
      simp at h
    | some b =>
      rw [hf] at h
      cases hrest : optMap f rest with
      | none =>
        rw [hrest] at h
        simp at h
      | some bs =>
        rw [hrest] at h
        injection h with h0
        subst h0
        match i with
        | 0 =>
          simp at he
          subst he
          exact ⟨b, hf, rfl⟩
        | j + 1 =>
          simp only [List.get?] at he ⊢
          exact ih bs hrest j e he

/-- C6: in `get_dependencies`, a dependency entry with no explicit
version element gets the parent's exact resolved version string when its
substituted groupId equals the parent's groupId (the `_get_pom` call has
already resolved `self._version`, so the inherited value is the concrete
resolved version, not the symbolic marker), and the symbolic `"release"`
marker otherwise. -/
theorem same_group_dep_inherits_parent_resolved_version :
    ∀ (env : VersionEnv) (fuel : Nat) (meta : MavenPackageMeta)
      (v0 : Option Str) (pom : Pom) (lst : List MavenDependencyPackage)
      (i : Nat) (e : DepEntry) (d : MavenDependencyPackage) (g : Str),
      get_dependencies env fuel meta v0 pom = some lst →
      pom.deps.get? i = some e →
      lst.get? i = some d →
      e.versionText = none →
      parse_property_value
        (buildProperties meta (get_version env meta v0)
          pom.propertiesBlock) fuel e.groupId = some g →
      d.version =
        if g = meta.groupId then get_version env meta v0
        else strL "release" := by
  intro env fuel meta v0 pom lst i e d g hdeps hie hid hnov hsub
  unfold get_dependencies at hdeps
  obtain ⟨y, hy, hry⟩ := optMap_get pom.deps lst hdeps i e hie
  rw [hid] at hry
  injection hry with hyd
  subst hyd
  unfold makeDependency at hy
  rw [hsub] at hy
  cases ha : parse_property_value
      (buildProperties meta (get_version env meta v0) pom.propertiesBlock)
      fuel e.artifactId with
  | none =>
    rw [ha] at hy
    simp at hy
  | some a =>
    rw [ha] at hy
    rw [hnov] at hy
    injection hy with hyd
    subst hyd
    rfl

def envC6 : VersionEnv := ⟨fun _ => strL "9.9", fun _ => strL "2.0"⟩

def metaC6 : MavenPackageMeta := ⟨strL "org.example", strL "core", strL "r"⟩

def entryC6 : DepEntry := ⟨strL "org.example", strL "utils", none, none, none⟩

def depC6 : MavenDependencyPackage :=
  ⟨⟨strL "org.example", strL "utils", strL "r"⟩, strL "2.0",
    strL "compile", false⟩

/-- C6 witness: a parent requested at the symbolic `"release"` version
(resolving to `"2.0"`) passes the exact string `"2.0"` — not
`"release"` — to its same-group version-less dependency. -/
theorem same_group_dep_inherits_version_witness :
    get_dependencies envC6 0 metaC6 (some (strL "release")) ⟨none, [entryC6]⟩ =
      some [depC6] ∧
    entryC6.versionText = none ∧
    depC6.version = strL "2.0" :=
  ⟨by decide, rfl,
   (same_group_dep_inherits_parent_resolved_version envC6 0 metaC6
     (some (strL "release")) ⟨none, [entryC6]⟩ [depC6] 0 entryC6 depC6
     (strL "org.example") (by decide) (by decide) (by decide) rfl
     (by decide)).trans (by decide)⟩

/-! ### Claim C8: `cache_jar` -/

/-- C8: `cache_jar` is idempotent and tolerant of absence: when the cache
path already exists it succeeds with zero network requests; a remote
`HTTPError` yields `False` without raising; on success the fetched bytes
are persisted at the cache path after the parent directory is created,
and a repeat call then performs zero network requests. -/
theorem cache_jar_idempotent_and_tolerant :
    ∀ (env : VersionEnv) (net : Str → NetResult) (cwd : Str)
      (meta : MavenPackageMeta) (v0 : Option Str) (pfix : Str) (fs : FS)
      (data path url : Str),
      path = get_jar_cache_path cwd meta.groupId meta.artifactId
        (get_version env meta v0) pfix →
      url = get_package_file_url env meta v0 (pfix ++ strL ".jar") →
      ((fs.files.lookup path).isSome = true →
          cache_jar env net cwd meta v0 pfix fs =
            Except.ok (true, fs, 0)) ∧
      ((fs.files.lookup path).isSome = false →
          net url = NetResult.httpError →
          cache_jar env net cwd meta v0 pfix fs =
            Except.ok (false, fs, 1)) ∧
      ((fs.files.lookup path).isSome = false →
          net url = NetResult.ok data →
          cache_jar env net cwd meta v0 pfix fs =
            Except.ok (true,
              ⟨(path, data) :: fs.files, dirname path :: fs.dirs⟩, 1) ∧
          cache_jar env net cwd meta v0 pfix
              ⟨(path, data) :: fs.files, dirname path :: fs.dirs⟩ =
            Except.ok (true,
              ⟨(path, data) :: fs.files, dirname path :: fs.dirs⟩, 0)) := by
  intro env net cwd meta v0 pfix fs data path url hpath hurl
  subst hpath
  subst hurl
  refine ⟨?_, ?_, ?_⟩
  · intro h
    unfold cache_jar
    rw [if_pos h]
  · intro h hnet
    unfold cache_jar
    rw [if_neg (by simp [h])]
    simp only [hnet]
  · intro h hnet
    constructor
    · unfold cache_jar
      rw [if_neg (by simp [h])]
      simp only [hnet]
    · unfold cache_jar
      rw [if_pos (by simp [List.lookup])]

/-- C8 witness: the three branches exercised on a concrete coordinate:
an initially empty cache triggers one fetch, persists the bytes, and the
second call finds them with zero network requests. -/
theorem cache_jar_idempotent_witness :
    cache_jar ⟨fun _ => strL "1", fun _ => strL "1"⟩
        (fun _ => NetResult.ok (strL "JAR")) (strL "/w")
        ⟨strL "g", strL "a", strL "r"⟩ (some (strL "1")) [] ⟨[], []⟩ =
      Except.ok (true,
        ⟨[(get_jar_cache_path (strL "/w") (strL "g") (strL "a")
            (strL "1") [], strL "JAR")],
          [dirname (get_jar_cache_path (strL "/w") (strL "g") (strL "a")
            (strL "1") [])]⟩, 1) ∧
    cache_jar ⟨fun _ => strL "1", fun _ => strL "1"⟩
        (fun _ => NetResult.ok (strL "JAR")) (strL "/w")
        ⟨strL "g", strL "a", strL "r"⟩ (some (strL "1")) []
        ⟨[(get_jar_cache_path (strL "/w") (strL "g") (strL "a")
            (strL "1") [], strL "JAR")],
          [dirname (get_jar_cache_path (strL "/w") (strL "g") (strL "a")
            (strL "1") [])]⟩ =
      Except.ok (true,
        ⟨[(get_jar_cache_path (strL "/w") (strL "g") (strL "a")
            (strL "1") [], strL "JAR")],
          [dirname (get_jar_cache_path (strL "/w") (strL "g") (strL "a")
            (strL "1") [])]⟩, 0) :=
  (cache_jar_idempotent_and_tolerant ⟨fun _ => strL "1", fun _ => strL "1"⟩
    (fun _ => NetResult.ok (strL "JAR")) (strL "/w")
    ⟨strL "g", strL "a", strL "r"⟩ (some (strL "1")) [] ⟨[], []⟩
    (strL "JAR") _ _ rfl rfl).2.2 rfl rfl

/-! ### Claim C1: the walker and its visited set

A concrete four-node dependency graph: `root → c, a`; `a → c`; `c → x`.
All packages are compile-scope, non-optional, with `artifactId = groupId`
so that the source's `__eq__`/`__hash__` behave consistently and
list-membership faithfully models Python set membership. -/

def wkPkg (g : Str) : MavenDependencyPackage :=
  ⟨⟨g, g, strL "repo"⟩, strL "1.0", strL "compile", false⟩

def wkRoot : MavenDependencyPackage := wkPkg (strL "root")

def wkA : MavenDependencyPackage := wkPkg (strL "a")

def wkC : MavenDependencyPackage := wkPkg (strL "c")

def wkX : MavenDependencyPackage := wkPkg (strL "x")

def wkDeps (p : MavenDependencyPackage) : List MavenDependencyPackage :=
  if p.meta.groupId = strL "root" then [wkC, wkA]
  else if p.meta.groupId = strL "a" then [wkC]
  else if p.meta.groupId = strL "c" then [wkX]
  else []

/-- C1: against the claim, `walk_dependencies` expands the coordinate `c`
TWICE on this graph when the caller seeds its own fresh visited set: the
recursive calls on `__main__.py` line 15 (and line 10) omit the
`processed` argument, so depth ≥ 1 consults the module-level default set
instead of the caller-seeded one.  `c`, reached both directly from `root`
(recorded only in the caller's set) and via `a` (checked only against the
default set), appears twice in the expansion trace; the walk does
terminate, with caller set `[c, a]` and default set `[x, c]`. -/
theorem walk_expands_reencountered_coordinate_twice :
    walk_dependencies wkDeps 10 wkRoot [] [] =
      some ([wkC, wkA], [wkX, wkC], [wkC, wkX, wkA, wkC]) := by
  decide

end MavenDownloader
